import Mathlib

/-!
Shallow embedding of the SIP/RTP core of the `tattelecom_intercom`
integration (files `sip.py`, `rtp.py`, `voip.py`), together with theorems
settling the specification claims about it.

Conventions of the embedding:
* bytes are `Nat` values `< 256`, byte strings are `List Nat`;
* Python `dict`s that the code iterates in insertion order are embedded as
  association lists with in-place update on an existing key;
* `asyncio` locks that only serialise access carry no data and are
  elided; the non-reentrant `_buffer_lock` of the RTP packet manager is
  modelled where it changes the outcome — the rebuild replay path
  re-acquires it on the same task and deadlocks, embedded as `none`;
* library primitives that are not part of the repository (MD5 from
  `hashlib`, the A-law codec from `audioop`) are abstracted as function
  parameters: every theorem below holds for an arbitrary instantiation.
-/

namespace TattelecomIntercom

/-! ### Generic helpers -/

/-- In-place update of an association list on an existing key, append
otherwise (`d[k] = v` on an insertion-ordered Python `dict`). -/
def assocInsert {α β : Type} [DecidableEq α] :
    List (α × β) → α → β → List (α × β)
  | [], k, v => [(k, v)]
  | (k', v') :: t, k, v =>
      if k' = k then (k, v) :: t else (k', v') :: assocInsert t k v

/-- Index of the first list element satisfying `p`
(`next((l.index(x) for x in l if p(x)), None)`). -/
def firstMatchIdx {α : Type} (p : α → Bool) : List α → Option Nat
  | [] => none
  | x :: xs => if p x then some 0 else (firstMatchIdx p xs).map (· + 1)

/-- Big-endian rendering of `n` on `w` bytes, the value of
`n.to_bytes(w, byteorder="big")` when it does not overflow. -/
def beBytes : Nat → Nat → List Nat
  | 0, _ => []
  | w + 1, n => beBytes w (n / 256) ++ [n % 256]

/-- `int.to_bytes` raises `OverflowError` when the value does not fit:
`some` bytes below the bound, `none` above it. -/
def toBytesBE (w n : Nat) : Option (List Nat) :=
  if n < 256 ^ w then some (beBytes w n) else none

/-- UTF-8 encoding of the code point `n` (two-byte range suffices for the
payload-type ids the code passes to `chr(...).encode("utf8")`). -/
def utf8Chr (n : Nat) : List Nat :=
  if n < 128 then [n] else [192 + n / 64, 128 + n % 64]

/-! ### Call state machine (`voip.py`)

`CallState` is the enum of `enum.py`; `callStep` collects every place in
`voip.py` that assigns `call.state` or raises on a state precondition:
`IntercomVoip._callback_ack`, `IntercomVoip._callback_bye_or_cancel`,
`IntercomVoip._callback_invite` (renegotiate path, no assignment),
`IntercomVoip.stop`, `Call.answer`, `Call.decline`, `Call.hangup`.
An operation that raises `IntercomInvalidStateError` leaves the state
unchanged. -/

inductive CallState
  | dialing
  | ringing
  | answered
  | ended
  deriving DecidableEq, Repr

inductive CallEvent
  | inviteMsg
  | ackMsg
  | byeMsg
  | cancelMsg
  | answerOp
  | declineOp
  | hangupOp
  | stopAll
  deriving DecidableEq, Repr

open CallState CallEvent

/-- One delivered message or local operation acting on `call.state`. -/
def callStep : CallState → CallEvent → CallState
  | s, .inviteMsg => s
  | s, .ackMsg => if s = ringing then answered else s
  | _, .byeMsg => ended
  | _, .cancelMsg => ended
  | s, .answerOp => s
  | s, .declineOp => if s = ringing then ended else s
  | s, .hangupOp => if s = answered then ended else s
  | _, .stopAll => ended

/-- Position of a state along the ringing → answered → ended walk. -/
def stateRank : CallState → Nat
  | dialing => 0
  | ringing => 0
  | answered => 1
  | ended => 2

/-! ### REGISTER digest authentication (`sip.py`)

`IntercomSip._calc_response_hash` and the `Authorization` fragment of
`IntercomSip._register_payload`. `hashlib.md5(...).hexdigest()` is
abstracted as the parameter `md5 : String → String`. -/

/-- The endpoint configuration fields `_calc_response_hash` reads. -/
structure SipConfig where
  address : String
  port : Nat
  username : String
  password : String

/-- The fields of the parsed 401 challenge that
`_calc_response_hash` and `_register_payload` read: `message.auth["realm"]`,
`message.auth["nonce"]` and `message.headers["CSeq"]["method"]`. -/
structure AuthChallenge where
  realm : String
  nonce : String
  cseqMethod : String

/-- `IntercomSip._calc_response_hash`. -/
def calc_response_hash (md5 : String → String) (cfg : SipConfig)
    (msg : AuthChallenge) : String :=
  let first_path := md5 (cfg.username ++ ":" ++ msg.realm ++ ":" ++ cfg.password)
  let second_path :=
    md5 (msg.cseqMethod ++ ":sip:" ++ cfg.address ++ ":" ++ toString cfg.port)
  md5 (first_path ++ ":" ++ msg.nonce ++ ":" ++ second_path)

/-- The `Authorization` fragment appended to REGISTER #2 by
`IntercomSip._register_payload` when a challenge message is present. -/
def registerAuthorization (md5 : String → String) (cfg : SipConfig)
    (msg : AuthChallenge) : String :=
  "\r\nAuthorization:  Digest realm=\"" ++ msg.realm ++ "\", nonce=\"" ++
    msg.nonce ++ "\",algorithm=MD5, username=\"" ++ cfg.username ++
    "\",  uri=\"sip:" ++ cfg.address ++ ":" ++ toString cfg.port ++
    "\", response=\"" ++ calc_response_hash md5 cfg msg ++ "\""

/-! ### SIP message heading (`sip.py`, class `Message`)

The heading is the first CRLF-separated line of the datagram, kept as a
`List Char` (the bytes are ASCII).  `Message.type`, `Message.method` and
`Message.status` all start from `self._heading.split(b" ")`, embedded
below as `pySplit`.  Exceptions are collected in `SipFailure`:
`parseFailure` is `IntercomSipParseError`, `indexFailure`/`valueFailure`
are Python's `IndexError`/`ValueError` from subscripting and
`int`/`MessageStatus` conversion. -/

inductive SipFailure
  | parseFailure
  | indexFailure
  | valueFailure
  | invalidState
  | invalidAccountInfo
  | timeoutFailure
  | socketFailure
  deriving DecidableEq, Repr

/-- Python `split` with an explicit separator set: `s.split(sep)` for a
one-character separator, and `re.split(" |/", s)` for several. -/
def pySplitAny (seps : List Char) : List Char → List (List Char)
  | [] => [[]]
  | c :: rest =>
    match pySplitAny seps rest with
    | [] => [[]]
    | grp :: gs => if c ∈ seps then [] :: grp :: gs else (c :: grp) :: gs

/-- `s.split(sep)` for a single-character separator. -/
def pySplit (sep : Char) (s : List Char) : List (List Char) :=
  pySplitAny [sep] s

theorem pySplitAny_ne_nil (seps : List Char) (s : List Char) :
    pySplitAny seps s ≠ [] := by
  cases s with
  | nil => simp [pySplitAny]
  | cons c rest =>
    simp only [pySplitAny]
    rcases h : pySplitAny seps rest with _ | ⟨grp, gs⟩
    · simp
    · by_cases hc : c ∈ seps <;> simp [hc]

theorem pySplitAny_sep_free (seps : List Char) (s : List Char)
    (h : ∀ c ∈ s, c ∉ seps) : pySplitAny seps s = [s] := by
  induction s with
  | nil => rfl
  | cons c rest ih =>
    have hrest : ∀ x ∈ rest, x ∉ seps := fun x hx => h x (List.mem_cons_of_mem _ hx)
    have hc : c ∉ seps := h c (List.mem_cons_self _ _)
    simp only [pySplitAny, ih hrest, hc, if_false]

theorem pySplitAny_append (seps : List Char) (pre rest : List Char)
    (sep : Char) (hsep : sep ∈ seps) (hpre : ∀ c ∈ pre, c ∉ seps) :
    pySplitAny seps (pre ++ sep :: rest) = pre :: pySplitAny seps rest := by
  induction pre with
  | nil =>
    simp only [List.nil_append, pySplitAny]
    rcases h : pySplitAny seps rest with _ | ⟨grp, gs⟩
    · exact absurd h (pySplitAny_ne_nil seps rest)
    · simp [hsep]
  | cons c pre ih =>
    have hc : c ∉ seps := hpre c (List.mem_cons_self _ _)
    have hpre' : ∀ x ∈ pre, x ∉ seps := fun x hx => hpre x (List.mem_cons_of_mem _ hx)
    simp only [List.cons_append, pySplitAny, hc, if_false]
    rw [show pre.append (sep :: rest) = pre ++ sep :: rest from rfl, ih hpre']

inductive MessageType
  | message
  | response
  deriving DecidableEq, Repr

/-- The request methods `Message.type` recognises: `REGISTER` is absent
from the set in the source. -/
def requestMethodTokens : List (List Char) :=
  ["INVITE".data, "ACK".data, "BYE".data, "CANCEL".data]

/-- `Message.type`: dispatch on the first space-separated token of the
heading; an empty heading (falsy `self._heading`) also raises. -/
def messageType (heading : List Char) : Except SipFailure MessageType :=
  if heading = [] then .error .parseFailure
  else
    let code := (pySplit ' ' heading).headD []
    if code = "SIP/2.0".data then .ok .response
    else if code ∈ requestMethodTokens then .ok .message
    else .error .parseFailure

/-- `Message.method`: `None` for responses, else the first token. -/
def messageMethod (heading : List Char) : Except SipFailure (Option (List Char)) :=
  match messageType heading with
  | .error e => .error e
  | .ok .response => .ok none
  | .ok .message => .ok (some ((pySplit ' ' heading).headD []))

/-- The numeric values of the `MessageStatus` enum members
(`enum.py`): `MessageStatus(n)` raises `ValueError` outside this list. -/
def messageStatusCodes : List Nat :=
  [100, 180, 181, 182, 183, 199, 200, 202, 204, 300, 301, 302, 305, 380,
   400, 401, 402, 403, 404, 405, 406, 407, 408, 409, 410, 411, 412, 413,
   414, 415, 416, 417, 420, 421, 422, 423, 424, 428, 429, 430, 433, 436,
   437, 438, 439, 440, 469, 470, 480, 481, 482, 483, 484, 485, 486, 487,
   488, 489, 491, 493, 494, 500, 501, 502, 503, 504, 505, 513, 555, 580,
   600, 603, 604, 606, 607, 608]

/-- `int(...)` on a decimal token (the forms that occur in SIP status
lines; sign and whitespace variants are not modelled). -/
def digitsToNat : List Char → Option Nat
  | [] => none
  | cs =>
    if cs.all Char.isDigit then
      some (cs.foldl (fun acc c => acc * 10 + (c.toNat - 48)) 0)
    else none

/-- `Message.status`: `None` for requests; for responses,
`MessageStatus(int(heading.split(b" ")[1]))`. -/
def messageStatus (heading : List Char) : Except SipFailure (Option Nat) :=
  match messageType heading with
  | .error e => .error e
  | .ok .message => .ok none
  | .ok .response =>
    match (pySplit ' ' heading).get? 1 with
    | none => .error .indexFailure
    | some tok =>
      match digitsToNat tok with
      | none => .error .valueFailure
      | some n =>
        if n ∈ messageStatusCodes then .ok (some n) else .error .valueFailure

/-! ### SDP media attributes (`sip.py`, `MessageParser._parse_a`,
`MessageParser._parse_m`, `Message.add_media_attr`)

A parsed `m` line holds `type port port_count protocol methods` and an
`attributes` dict keyed by codec id; `_parse_m` pre-creates an empty
bucket per codec.  `a=rtpmap:`/`a=fmtp:` lines are routed through
`Message.add_media_attr`. -/

inductive TransmitType
  | recvonly
  | sendrecv
  | sendonly
  | inactiveType
  deriving DecidableEq, Repr

/-- `TransmitType(attribute)`: the four recognised transmit attributes. -/
def transmitTypeOf (a : List Char) : Option TransmitType :=
  if a = "recvonly".data then some .recvonly
  else if a = "sendrecv".data then some .sendrecv
  else if a = "sendonly".data then some .sendonly
  else if a = "inactive".data then some .inactiveType
  else none

inductive MediaAttr
  | rtpmap (id name frequency : String) (encoding : Option String)
  | fmtp (id : String) (settings : List String)
  deriving DecidableEq, Repr

structure MediaLine where
  mediaType : String
  port : Nat
  portCount : Nat
  protocol : String
  methods : List String
  attributes : List (String × List (String × MediaAttr))
  deriving DecidableEq, Repr

/-- The SDP body fields `_parse_a` touches.  In the source the free
attributes and the transmit type share the body's `a` dict; they are kept
in separate fields here because their values have different types. -/
structure SdpBody where
  m : List MediaLine
  a : List (String × String)
  transmitType : Option TransmitType
  deriving DecidableEq, Repr

/-- `l[i] = f(l[i])` when the index exists. -/
def listModify {α : Type} (l : List α) (i : Nat) (f : α → α) : List α :=
  match l.get? i with
  | some x => l.set i (f x)
  | none => l

/-- `attributes[attr_index][attr_code] = value`, creating the bucket when
absent (the source's membership test plus assignment). -/
def bucketInsert (buckets : List (String × List (String × MediaAttr)))
    (idx code : String) (v : MediaAttr) :
    List (String × List (String × MediaAttr)) :=
  let buckets' :=
    if (buckets.lookup idx).isSome then buckets else buckets ++ [(idx, [])]
  assocInsert buckets' idx (assocInsert ((buckets'.lookup idx).getD []) code v)

/-- `Message.add_media_attr`.  `media_index` is the index of the first
`m` line whose `methods` contain the codec id; the source's guard
`if not media_index or media_index > (len(self._body["m"]) - 1)` is also
true when the index is `0`, so the first `m` line is never updated. -/
def add_media_attr (ms : List MediaLine) (attr_index attr_code : String)
    (v : MediaAttr) : List MediaLine :=
  match firstMatchIdx (fun m => decide (attr_index ∈ m.methods)) ms with
  | none => ms
  | some mediaIndex =>
    if mediaIndex = 0 then ms
    else if mediaIndex > ms.length - 1 then ms
    else
      listModify ms mediaIndex fun m =>
        { m with attributes := bucketInsert m.attributes attr_index attr_code v }

/-- `MessageParser._parse_a` (the `a=` line handler): transmit-type
attributes, `rtpmap`, `fmtp`, and free attributes.  `none` models the
`IndexError` raised on an `rtpmap` value with fewer than three
space/slash-separated fields. -/
def parse_a (body : SdpBody) (data : List Char) : Option SdpBody :=
  let chunk := pySplit ':' data
  let hasColon := 2 ≤ chunk.length
  let attrName := if hasColon then chunk.headD [] else data
  let value := if hasColon then chunk.getD 1 [] else []
  if value = [] then
    some (match transmitTypeOf attrName with
      | some t => { body with transmitType := some t }
      | none => body)
  else if attrName = "rtpmap".data then
    match pySplitAny [' ', '/'] value with
    | v0 :: v1 :: v2 :: rest =>
      some { body with
        m := add_media_attr body.m (String.mk v0) "rtpmap"
          (.rtpmap (String.mk v0) (String.mk v1) (String.mk v2)
            (if rest.length = 1 then some (String.mk (rest.headD [])) else none)) }
    | _ => none
  else if attrName = "fmtp".data then
    let values := pySplit ' ' value
    some { body with
      m := add_media_attr body.m (String.mk (values.headD [])) "fmtp"
        (.fmtp (String.mk (values.headD [])) (values.tail.map String.mk)) }
  else
    some { body with a := assocInsert body.a (String.mk attrName) (String.mk value) }

/-! ### RTP packet manager (`rtp.py`, class `RtpPacketManager`)

State: the `history` dict, the stored base `_offset` (initially
`4294967296`), the `BytesIO` buffer contents and its position (the read
cursor).  `BytesIO.write` at a position past the end pads with zero
bytes.

The `_buffer_lock` is a non-reentrant `asyncio.Lock` and matters:
`write` holds it for its whole body, and `rebuild` — only ever invoked
from `write` — replays the stored history by awaiting `self.write`,
which tries to acquire that same lock on the same task.  The first
nested call therefore blocks forever: a `write` that reaches the
non-reset rebuild never returns.  `pmWrite`/`pmRebuild` return an
`Option`, with `none` standing for this deadlocked, never-returning
call. -/

structure PmState where
  history : List (Nat × List Nat)
  offset : Nat
  buffer : List Nat
  cursor : Nat
  deriving DecidableEq, Repr

/-- A fresh `RtpPacketManager`. -/
def pmInit : PmState := ⟨[], 4294967296, [], 0⟩

/-- `BytesIO` write of `d` at position `p` over contents `b`. -/
def bufWrite (b : List Nat) (p : Nat) (d : List Nat) : List Nat :=
  let padded := b ++ List.replicate (p - b.length) 0
  padded.take p ++ d ++ padded.drop (p + d.length)

/-- `RtpPacketManager.read`: returns exactly `length` bytes, padding a
short read with `0x80`; the cursor advances by the bytes actually read. -/
def pmRead (st : PmState) (length : Nat) : List Nat × PmState :=
  let chunk := (st.buffer.drop st.cursor).take length
  (chunk ++ List.replicate (length - chunk.length) 0x80,
   { st with cursor := st.cursor + chunk.length })

/-- `RtpPacketManager.rebuild`.  The reset branch replaces history and
buffer and completes.  The non-reset branch saves the cursor, replaces
the buffer with a fresh `BytesIO()` and then, for each stored frame,
awaits `self.write` — which blocks forever on the `_buffer_lock` the
calling `write` still holds.  With a non-empty history (always the case
when invoked from `write`, which has just inserted the frame) the replay
therefore never completes: `none`.  An empty history skips the loop and
merely restores the cursor over the fresh buffer. -/
def pmRebuild (st : PmState) (reset : Bool) (offset : Nat)
    (data : List Nat) : Option PmState :=
  if reset then
    some { st with history := [(offset, data)], buffer := data, cursor := 0 }
  else
    match st.history with
    | [] => some { st with buffer := [] }
    | _ :: _ => none

/-- `RtpPacketManager.write`: `none` is the deadlocked call that never
returns (see `pmRebuild`). -/
def pmWrite (st : PmState) (offset : Nat) (data : List Nat) : Option PmState :=
  let st1 := { st with history := assocInsert st.history offset data }
  if offset < st.offset then
    pmRebuild { st1 with offset := offset }
      (decide (100000 ≤ st.offset - offset)) offset data
  else
    some { st1 with buffer := bufWrite st1.buffer (offset - st.offset) data }

/-! ### RTP client transmit path (`rtp.py`, `RtpClient._trans`,
`RtpClient._encode_packet`)

`audioop.lin2alaw(audioop.bias(payload, 1, -128), 1)` and the analogous
µ-law pipeline are abstracted as the parameters `encA`/`encU`; both are
byte-wise maps in `audioop`, but nothing below depends on that.  The
`_ssrc` is drawn from `randint(1000, 65530)`, so its `to_bytes(4, "big")`
never overflows and is embedded as plain `beBytes 4`. -/

inductive RtpPayloadType
  | pcmu | gsm | g723 | dvi4_8000 | dvi4_16000 | lpc | pcma | g722
  | l16_2 | l16 | qcelp | cn | mpa | g728 | dvi4_11025 | dvi4_22050
  | g729 | celb | jpeg | nv | h261 | mpv | mp2t | h263 | h264 | event
  | unknown
  deriving DecidableEq, Repr

/-- The enum member's `value` when it is an `int` (`UNKNOWN` carries a
string). -/
def payloadValueInt : RtpPayloadType → Option Nat
  | .pcmu => some 0
  | .gsm => some 3
  | .g723 => some 4
  | .dvi4_8000 => some 5
  | .dvi4_16000 => some 6
  | .lpc => some 7
  | .pcma => some 8
  | .g722 => some 9
  | .l16_2 => some 10
  | .l16 => some 11
  | .qcelp => some 12
  | .cn => some 13
  | .mpa => some 14
  | .g728 => some 15
  | .dvi4_11025 => some 16
  | .dvi4_22050 => some 17
  | .g729 => some 18
  | .celb => some 25
  | .jpeg => some 26
  | .nv => some 28
  | .h261 => some 31
  | .mpv => some 32
  | .mp2t => some 33
  | .h263 => some 34
  | .h264 => some 99
  | .event => some 101
  | .unknown => none

/-- `int(self.preference or 0)`: `RtpPayloadType.__int__` falls back to
`0` on the string-valued member, and `None` yields the literal `0`. -/
def prefInt : Option RtpPayloadType → Nat
  | none => 0
  | some p => (payloadValueInt p).getD 0

/-- `RtpClient._encode_packet`: header byte `0x80`, payload-type byte via
`chr(...).encode("utf8")`, sequence and timestamp fields each dropped
when `to_bytes` overflows (`contextlib.suppress(OverflowError)`), SSRC,
then the encoded payload; returns the packet and the encoded length. -/
def encode_packet (pref : Option RtpPayloadType) (ssrc : Nat)
    (encA encU : List Nat → List Nat) (payload : List Nat)
    (sequence timestamp : Nat) : List Nat × Nat :=
  let packet := [0x80] ++ utf8Chr (prefInt pref)
  let packet := packet ++ (toBytesBE 2 sequence).getD []
  let packet := packet ++ (toBytesBE 4 timestamp).getD []
  let packet := packet ++ beBytes 4 ssrc
  if pref = some .pcma then
    (packet ++ encA payload, (encA payload).length)
  else if pref = some .pcmu then
    (packet ++ encU payload, (encU payload).length)
  else ([], 0)

/-- The transmit loop counters `_out_sequence` and `_out_timestamp`. -/
structure TransState where
  sequence : Nat
  timestamp : Nat
  deriving DecidableEq, Repr

/-- One successfully sent packet of the transmit loop, with the counter
values it was built from. -/
structure SentPacket where
  bytes : List Nat
  sequence : Nat
  timestamp : Nat
  payloadLength : Nat
  deriving DecidableEq, Repr

/-- One iteration of `RtpClient._trans` in which `sendto` does not raise:
encode the frame read from the outbound manager with the current
counters, then advance the sequence by 1 and the timestamp by the
encoded length. -/
def transStep (pref : Option RtpPayloadType) (ssrc : Nat)
    (encA encU : List Nat → List Nat) (st : TransState)
    (frame : List Nat) : SentPacket × TransState :=
  let pl := encode_packet pref ssrc encA encU frame st.sequence st.timestamp
  (⟨pl.1, st.sequence, st.timestamp, pl.2⟩,
   ⟨st.sequence + 1, st.timestamp + pl.2⟩)

/-- The transmit loop over a list of outbound frames. -/
def transRun (pref : Option RtpPayloadType) (ssrc : Nat)
    (encA encU : List Nat → List Nat) (st : TransState) :
    List (List Nat) → List SentPacket × TransState
  | [] => ([], st)
  | f :: fs =>
    let p := transStep pref ssrc encA encU st f
    let r := transRun pref ssrc encA encU p.2 fs
    (p.1 :: r.1, r.2)

/-- Wire-format accessors for an encoded RTP packet. -/
def wireVersion (p : List Nat) : Nat := p.getD 0 0 / 64

def wirePadding (p : List Nat) : Nat := p.getD 0 0 / 32 % 2

def wireExtension (p : List Nat) : Nat := p.getD 0 0 / 16 % 2

def wireMarker (p : List Nat) : Nat := p.getD 1 0 / 128

/-! ### Call audio delegation (`voip.py`, `Call.write_audio`,
`Call.read_audio`, `Call.get_audio_client`; `rtp.py`, `RtpClient.write`,
`RtpClient.read`) -/

/-- The `RtpClient` fields the call-level audio operations reach:
the codec association (insertion-ordered), the outbound byte counter
`_out_offset`, and the two packet managers. -/
structure RtpClientM where
  assoc : List (Nat × RtpPayloadType)
  outOffset : Nat
  pmOut : PmState
  pmIn : PmState
  deriving DecidableEq, Repr

/-- `RtpClient.preference`: the first codec of the association whose
enum value is an `int`. -/
def preference (cl : RtpClientM) : Option RtpPayloadType :=
  (cl.assoc.map Prod.snd).find? (fun p => (payloadValueInt p).isSome)

/-- `RtpClient.is_audio`: preference is PCMU or PCMA. -/
def is_audio (cl : RtpClientM) : Bool :=
  preference cl = some .pcmu || preference cl = some .pcma

/-- `RtpClient.write`: append to the outbound manager at `_out_offset`,
then advance the offset by the frame length.  `_out_offset` only grows,
so after the initial reset the manager write always takes its in-place
branch and the deadlock case of `pmWrite` is unreachable here; it is
mapped to the unchanged client, standing for a call that never returns
and hence never advances `_out_offset`. -/
def clientWrite (cl : RtpClientM) (d : List Nat) : RtpClientM :=
  match pmWrite cl.pmOut cl.outOffset d with
  | some pm => { cl with pmOut := pm, outOffset := cl.outOffset + d.length }
  | none => cl

/-- `RtpClient.read` (one read of the inbound manager; the blocking
retry-while-silence loop only repeats this read over time). -/
def clientRead (cl : RtpClientM) (length : Nat) : List Nat × RtpClientM :=
  let r := pmRead cl.pmIn length
  (r.1, { cl with pmIn := r.2 })

/-- The `Call` fields the audio operations reach. -/
structure CallM where
  state : CallState
  clients : List RtpClientM
  deriving DecidableEq, Repr

/-- `Call.get_audio_client`: the first client whose `is_audio` holds. -/
def get_audio_client (c : CallM) : Option RtpClientM :=
  c.clients.find? is_audio

/-- `Call.write_audio`: raises `IntercomInvalidStateError` unless the
call is answered, otherwise delegates to the first audio client (no-op
when there is none). -/
def write_audio (c : CallM) (d : List Nat) :
    Except SipFailure Unit × CallM :=
  if c.state ≠ .answered then (.error .invalidState, c)
  else
    match firstMatchIdx is_audio c.clients with
    | some i =>
      (.ok (), { c with clients := listModify c.clients i fun cl => clientWrite cl d })
    | none => (.ok (), c)

/-- `Call.read_audio`: delegates to the first audio client with **no**
state check; returns `none` when there is no audio client. -/
def read_audio (c : CallM) (length : Nat) :
    Except SipFailure (Option (List Nat)) × CallM :=
  match firstMatchIdx is_audio c.clients with
  | some i =>
    match c.clients.get? i with
    | some cl =>
      let r := clientRead cl length
      (.ok (some r.1), { c with clients := c.clients.set i r.2 })
    | none => (.ok none, c)
  | none => (.ok none, c)

/-! ### Registration retry loop (`sip.py`, `IntercomSip._register`)

The handshake is embedded over the list of datagrams the receive socket
yields, each reduced to its parsed `Message.status` (`none` when the
parsed message is a request).  The recursion of `_register` on a server
error is bounded here by explicit fuel; exhausting the fuel yields
`pending` — the handshake still retrying when observation stops, which is
how an unbounded recursion is observed from outside.  Exhausting the
input at a `select` yields `timeoutFailure` (`SIP_TIMEOUT`), and at the
unguarded `recv` after a `100 Trying` yields `socketFailure`. -/

inductive RegEvent
  | sendRegisterFirst
  | sendRegisterSecond
  | sleepRetry
  | handleMsg
  deriving DecidableEq, Repr

inductive RegOutcome
  | success
  | failure (e : SipFailure)
  | pending
  deriving DecidableEq, Repr

/-- `IntercomSip._register` over a list of response statuses, returning
the outcome and the trace of sends, 5-second back-off sleeps
(`SIP_RETRY_SLEEP`) and handler deliveries. -/
def register : Nat → List (Option Nat) → RegOutcome × List RegEvent
  | 0, _ => (.pending, [])
  | _ + 1, [] => (.failure .timeoutFailure, [.sendRegisterFirst])
  | fuel + 1, s1 :: rest =>
    let afterTrying : Option (Option Nat × List (Option Nat)) :=
      if s1 = some 100 then
        match rest with
        | [] => none
        | x :: xs => some (x, xs)
      else some (s1, rest)
    match afterTrying with
    | none => (.failure .socketFailure, [.sendRegisterFirst])
    | some (m, rest1) =>
      if m = some 400 then (.failure .invalidState, [.sendRegisterFirst])
      else
        let second : Option (Option Nat × List (Option Nat) × List RegEvent) :=
          if m = some 401 then
            match rest1 with
            | [] => none
            | s3 :: rest2 => some (s3, rest2, [.sendRegisterSecond])
          else some (m, rest1, [])
        match second with
        | none => (.failure .timeoutFailure, [.sendRegisterFirst, .sendRegisterSecond])
        | some (final, rest2, tr0) =>
          let tr := .sendRegisterFirst :: tr0
          if final = some 401 then (.failure .invalidAccountInfo, tr)
          else if final = some 400 then (.failure .invalidState, tr)
          else if final = some 407 then (.failure .invalidAccountInfo, tr)
          else if final = none ∨ 500 ≤ final.getD 0 then
            let r := register fuel rest2
            (r.1, tr ++ [.sleepRetry] ++ r.2)
          else if final = some 200 then (.success, tr ++ [.handleMsg])
          else (.failure .invalidAccountInfo, tr ++ [.handleMsg])

/-! ### Shared lemmas -/

theorem stringAppend_assoc (a b c : String) : (a ++ b) ++ c = a ++ (b ++ c) := by
  rcases a with ⟨a⟩; rcases b with ⟨b⟩; rcases c with ⟨c⟩
  show String.mk ((a ++ b) ++ c) = String.mk (a ++ (b ++ c))
  rw [List.append_assoc]

theorem assocInsert_lookup_self {α β : Type} [DecidableEq α]
    (l : List (α × β)) (k : α) (v : β) :
    (assocInsert l k v).lookup k = some v := by
  induction l with
  | nil => simp [assocInsert, List.lookup]
  | cons p t ih =>
    rcases p with ⟨k', v'⟩
    by_cases h : k' = k
    · simp [assocInsert, h, List.lookup]
    · have hkk : (k == k') = false := beq_eq_false_iff_ne.mpr (fun hh => h hh.symm)
      simp [assocInsert, h, List.lookup, ih, hkk]

theorem firstMatchIdx_get {α : Type} (p : α → Bool) (l : List α) (i : Nat)
    (h : firstMatchIdx p l = some i) :
    ∃ x, l.get? i = some x ∧ p x = true := by
  induction l generalizing i with
  | nil => simp [firstMatchIdx] at h
  | cons x xs ih =>
    by_cases hp : p x
    · simp [firstMatchIdx, hp] at h
      exact ⟨x, by simp [← h], hp⟩
    · simp [firstMatchIdx, hp] at h
      rcases h with ⟨j, hj, rfl⟩
      rcases ih j hj with ⟨y, hy, hpy⟩
      exact ⟨y, by simpa using hy, hpy⟩

theorem firstMatchIdx_lt_length {α : Type} (p : α → Bool) (l : List α)
    (i : Nat) (h : firstMatchIdx p l = some i) : i < l.length := by
  rcases firstMatchIdx_get p l i h with ⟨x, hx, _⟩
  exact List.get?_eq_some.mp hx |>.choose

/-! ### C1 — REGISTER digest -/

/-- **C1.** For every REGISTER handshake in which the 401 challenge
supplies a realm and nonce (the fields of `AuthChallenge`) and whose
`CSeq` method is `REGISTER` (what the server echoes on a REGISTER
transaction), the `response` field of the `Authorization` header sent in
REGISTER #2 equals
`MD5(MD5(username:realm:password) : nonce : MD5("REGISTER" : "sip:<address>:<port>"))`,
for the endpoint's configured SIP server address and port — and this holds
for an arbitrary interpretation of MD5. -/
theorem register_digest_formula (md5 : String → String) (cfg : SipConfig)
    (msg : AuthChallenge) (h : msg.cseqMethod = "REGISTER") :
    registerAuthorization md5 cfg msg =
      "\r\nAuthorization:  Digest realm=\"" ++ msg.realm ++ "\", nonce=\"" ++
        msg.nonce ++ "\",algorithm=MD5, username=\"" ++ cfg.username ++
        "\",  uri=\"sip:" ++ cfg.address ++ ":" ++ toString cfg.port ++
        "\", response=\"" ++
        md5 (md5 (cfg.username ++ ":" ++ msg.realm ++ ":" ++ cfg.password) ++
          ":" ++ msg.nonce ++ ":" ++
          md5 ("REGISTER" ++ ":" ++
            ("sip:" ++ cfg.address ++ ":" ++ toString cfg.port))) ++ "\"" := by
  unfold registerAuthorization calc_response_hash
  rw [h]
  rw [show (":sip:" : String) = ":" ++ "sip:" from rfl]
  simp only [stringAppend_assoc]

/-- Witness for C1 at the fixture credentials of the repository's tests,
with `md5` instantiated by the identity function. -/
theorem register_digest_formula_witness :
    registerAuthorization id ⟨"217.0.0.1", 9740, "D100000", "test"⟩
        ⟨"test-1", "003af036", "REGISTER"⟩ =
      "\r\nAuthorization:  Digest realm=\"" ++ "test-1" ++ "\", nonce=\"" ++
        "003af036" ++ "\",algorithm=MD5, username=\"" ++ "D100000" ++
        "\",  uri=\"sip:" ++ "217.0.0.1" ++ ":" ++ toString (9740 : Nat) ++
        "\", response=\"" ++
        id (id ("D100000" ++ ":" ++ "test-1" ++ ":" ++ "test") ++ ":" ++
          "003af036" ++ ":" ++
          id ("REGISTER" ++ ":" ++
            ("sip:" ++ "217.0.0.1" ++ ":" ++ toString (9740 : Nat)))) ++ "\"" :=
  register_digest_formula id ⟨"217.0.0.1", 9740, "D100000", "test"⟩
    ⟨"test-1", "003af036", "REGISTER"⟩ rfl

/-! ### C3 — call state machine -/

/-- **C3.** The call state only moves forward along
ringing → answered → ended: every event is monotone in `stateRank`,
`ended` is absorbing, ACK answers a ringing call, BYE/CANCEL end a call
from any state, decline ends a ringing call and hangup ends an answered
call. -/
theorem call_state_monotone :
    (∀ s e, stateRank s ≤ stateRank (callStep s e)) ∧
    (∀ e, callStep .ended e = .ended) ∧
    callStep .ringing .ackMsg = .answered ∧
    (∀ s, callStep s .byeMsg = .ended) ∧
    (∀ s, callStep s .cancelMsg = .ended) ∧
    callStep .ringing .declineOp = .ended ∧
    callStep .answered .hangupOp = .ended := by
  refine ⟨fun s e => ?_, fun e => ?_, rfl, fun s => ?_, fun s => ?_, rfl, rfl⟩
  · cases s <;> cases e <;> simp [callStep, stateRank]
  · cases e <;> rfl
  · cases s <;> rfl
  · cases s <;> rfl

/-! ### C2 — heading dispatch -/

/-- **C2 counterexample.** The claim admits `REGISTER` among the request
methods, but `Message.type` only recognises `INVITE`, `ACK`, `BYE` and
`CANCEL`: a syntactically well-formed REGISTER request heading raises
`IntercomSipParseError` instead of parsing as a request. -/
theorem message_type_rejects_register :
    messageType ("REGISTER sip:D100000@217.0.0.1 SIP/2.0".data) =
      .error .parseFailure := by rfl

/-- **C2 amended.** The kind of a message is decided by the *first
space-separated token* of the heading: `SIP/2.0` yields a response (and,
when the second token is a decimal value of the status enum, that numeric
status), a token in {INVITE, ACK, CANCEL, BYE} yields a request carrying
that method, and any other first token — `REGISTER` included — fails with
a parse error. -/
theorem message_heading_dispatch :
    (∀ heading : List Char, (pySplit ' ' heading).headD [] = "SIP/2.0".data →
       messageType heading = .ok .response) ∧
    (∀ heading : List Char, (pySplit ' ' heading).headD [] ∈ requestMethodTokens →
       messageType heading = .ok .message ∧
       messageMethod heading = .ok (some ((pySplit ' ' heading).headD []))) ∧
    (∀ heading : List Char, (pySplit ' ' heading).headD [] ≠ "SIP/2.0".data →
       (pySplit ' ' heading).headD [] ∉ requestMethodTokens →
       messageType heading = .error .parseFailure) ∧
    (∀ (code rest : List Char) (n : Nat), (∀ c ∈ code, c ≠ ' ') →
       digitsToNat code = some n → n ∈ messageStatusCodes →
       messageStatus ("SIP/2.0 ".data ++ code ++ ' ' :: rest) = .ok (some n)) := by
  have hsip : ∀ c ∈ "SIP/2.0".data, c ∉ [' '] := by decide
  refine ⟨?_, ?_, ?_, ?_⟩
  · intro heading hh
    have hne : heading ≠ [] := by
      intro he
      rw [he] at hh
      exact absurd hh (by decide)
    unfold messageType
    rw [if_neg hne]
    simp only [List.headD_eq_head?] at hh
    simp [hh]
  · intro heading hh
    have hne : heading ≠ [] := by
      intro he
      rw [he] at hh
      exact absurd hh (by decide)
    have htype : messageType heading = .ok .message := by
      unfold messageType
      rw [if_neg hne]
      have hnot : (pySplit ' ' heading).headD [] ≠ "SIP/2.0".data := by
        intro hcontra
        rw [hcontra] at hh
        exact absurd hh (by decide)
      simp only [List.headD_eq_head?] at hh hnot
      simp [hh, hnot]
    exact ⟨htype, by unfold messageMethod; rw [htype]⟩
  · intro heading h1 h2
    by_cases hne : heading = []
    · unfold messageType
      rw [if_pos hne]
    · unfold messageType
      rw [if_neg hne]
      simp only [List.headD_eq_head?] at h1 h2
      simp [h1, h2]
  · intro code rest n hcode hval hmem
    have hpre : "SIP/2.0 ".data ++ code ++ ' ' :: rest =
        "SIP/2.0".data ++ ' ' :: (code ++ ' ' :: rest) := by
      rw [show "SIP/2.0 ".data = "SIP/2.0".data ++ [' '] from rfl]
      simp [List.append_assoc]
    have hsplit : pySplit ' ' ("SIP/2.0 ".data ++ code ++ ' ' :: rest) =
        "SIP/2.0".data :: code :: pySplit ' ' rest := by
      rw [hpre]
      unfold pySplit
      rw [pySplitAny_append [' '] "SIP/2.0".data _ ' ' (by decide) hsip]
      rw [pySplitAny_append [' '] code rest ' ' (by decide)
        (fun c hc => by simpa using hcode c hc)]
    have hne : "SIP/2.0 ".data ++ code ++ ' ' :: rest ≠ [] := by
      rw [hpre]
      simp
    have htype : messageType ("SIP/2.0 ".data ++ code ++ ' ' :: rest) =
        .ok .response := by
      unfold messageType
      rw [if_neg hne, hsplit]
      simp
    unfold messageStatus
    rw [htype, hsplit]
    simp [hval, hmem]

/-- Witness for C2 amended: a response heading, a request heading, an
unrecognised heading and a status extraction, each through the theorem. -/
theorem message_heading_dispatch_witness :
    messageType ("SIP/2.0 401 Unauthorized".data) = .ok .response ∧
    messageType ("INVITE sip:user@host SIP/2.0".data) = .ok .message ∧
    messageType ("OPTIONS sip:user@host SIP/2.0".data) = .error .parseFailure ∧
    messageStatus ("SIP/2.0 ".data ++ "401".data ++ ' ' :: "Unauthorized".data) =
      .ok (some 401) :=
  ⟨message_heading_dispatch.1 _ (by decide),
   (message_heading_dispatch.2.1 _ (by decide)).1,
   message_heading_dispatch.2.2.1 _ (by decide) (by decide),
   message_heading_dispatch.2.2.2 "401".data "Unauthorized".data 401
     (by decide) (by decide) (by decide)⟩

/-! ### C4 — RtpPacketManager.write -/

theorem assocInsert_ne_nil {α β : Type} [DecidableEq α]
    (l : List (α × β)) (k : α) (v : β) : assocInsert l k v ≠ [] := by
  cases l with
  | nil => simp [assocInsert]
  | cons p t =>
    rcases p with ⟨k', v'⟩
    by_cases h : k' = k <;> simp [assocInsert, h]

/-- **C4** (code bug).  The claim — like the spec and the visible intent
of `rebuild` itself — says a backward jump smaller than 100 000 units
replays the stored history into a fresh buffer with the read cursor
preserved.  The code never does this: `rebuild`'s replay loop awaits
`self.write` while the same task still holds the non-reentrant
`_buffer_lock` acquired by the calling `write`, so every sub-threshold
backward write deadlocks and never returns (`none`).  At or above the
threshold (`>= 100000`) the write completes with the reset semantics,
and at or above the stored base with the in-place semantics. -/
theorem rtp_manager_write_deadlock (st : PmState) (offset : Nat)
    (data : List Nat) :
    (offset < st.offset → st.offset - offset < 100000 →
      pmWrite st offset data = none) ∧
    (offset < st.offset → 100000 ≤ st.offset - offset →
      pmWrite st offset data = some ⟨[(offset, data)], offset, data, 0⟩) ∧
    (st.offset ≤ offset →
      pmWrite st offset data =
        some ⟨assocInsert st.history offset data, st.offset,
          bufWrite st.buffer (offset - st.offset) data, st.cursor⟩) := by
  refine ⟨fun hlt hjump => ?_, fun hlt hjump => ?_, fun hge => ?_⟩
  · unfold pmWrite pmRebuild
    rw [if_pos hlt, decide_eq_false (by omega : ¬ 100000 ≤ st.offset - offset)]
    simp only [Bool.false_eq_true, if_false]
    rcases h : assocInsert st.history offset data with _ | ⟨p, t⟩
    · exact absurd h (assocInsert_ne_nil _ _ _)
    · simp only [h]
  · unfold pmWrite pmRebuild
    rw [if_pos hlt, decide_eq_true hjump]
    simp
  · unfold pmWrite
    rw [if_neg (Nat.not_lt_of_le hge)]

/-- Witness for C4: a backward jump of 50 000 deadlocks (`none`); a jump
of 150 000 resets; an in-range write lands in place. -/
theorem rtp_manager_write_deadlock_witness :
    pmWrite ⟨[(200000, [1])], 200000, [1], 0⟩ 150000 [2] = none ∧
    pmWrite ⟨[(200000, [1])], 200000, [1], 0⟩ 50000 [2] =
      some ⟨[(50000, [2])], 50000, [2], 0⟩ ∧
    pmWrite ⟨[(10, [1])], 10, [1], 0⟩ 12 [9] =
      some ⟨assocInsert [(10, [1])] 12 [9], 10, bufWrite [1] 2 [9], 0⟩ :=
  ⟨(rtp_manager_write_deadlock ⟨[(200000, [1])], 200000, [1], 0⟩ 150000 [2]).1
      (by decide) (by decide),
   (rtp_manager_write_deadlock ⟨[(200000, [1])], 200000, [1], 0⟩ 50000 [2]).2.1
      (by decide) (by decide),
   (rtp_manager_write_deadlock ⟨[(10, [1])], 10, [1], 0⟩ 12 [9]).2.2
      (by decide)⟩

/-! ### C5 — media attribute buckets -/

theorem bucketInsert_lookup (buckets : List (String × List (String × MediaAttr)))
    (idx code : String) (v : MediaAttr) :
    ((bucketInsert buckets idx code v).lookup idx).bind
      (fun b => b.lookup code) = some v := by
  unfold bucketInsert
  rw [assocInsert_lookup_self]
  simp [assocInsert_lookup_self]

/-- **C5 counterexample.** The claim requires the parsed `rtpmap`
structure to be stored even when the matching `m` line is the first one,
but `add_media_attr`'s guard `if not media_index …` is also true for
index `0`: parsing `a=rtpmap:8 PCMA/8000` against a body whose *first*
(and only) `m` line carries codec `8` leaves the body unchanged — the
bucket for `8` stays empty.  (The repository's own parser test asserts
these empty buckets for the first media line of the INVITE fixture.) -/
theorem media_attr_first_line_cex :
    ("8" ∈ (["8", "101"] : List String)) ∧
    parse_a ⟨[⟨"audio", 40564, 1, "RTP/AVP", ["8", "101"],
              [("8", []), ("101", [])]⟩], [], none⟩ "rtpmap:8 PCMA/8000".data =
      some ⟨[⟨"audio", 40564, 1, "RTP/AVP", ["8", "101"],
              [("8", []), ("101", [])]⟩], [], none⟩ := by
  exact ⟨by decide, by rfl⟩

/-- **C5 amended.** An `rtpmap`/`fmtp` attribute whose codec id first
matches the `m` line at index `i + 1 ≥ 1` is stored in that line's
attribute bucket under the codec id; when the first matching line is at
index `0`, or no line matches, the attribute is dropped and the media
list is unchanged. -/
theorem media_attr_storage (ms : List MediaLine) (idx code : String)
    (v : MediaAttr) :
    (∀ i, firstMatchIdx (fun m => decide (idx ∈ m.methods)) ms = some (i + 1) →
      ∃ m, ms.get? (i + 1) = some m ∧
        add_media_attr ms idx code v =
          ms.set (i + 1)
            { m with attributes := bucketInsert m.attributes idx code v } ∧
        ((bucketInsert m.attributes idx code v).lookup idx).bind
          (fun b => b.lookup code) = some v) ∧
    (firstMatchIdx (fun m => decide (idx ∈ m.methods)) ms = some 0 →
      add_media_attr ms idx code v = ms) ∧
    (firstMatchIdx (fun m => decide (idx ∈ m.methods)) ms = none →
      add_media_attr ms idx code v = ms) := by
  refine ⟨fun i hidx => ?_, fun h0 => ?_, fun hnone => ?_⟩
  · have hlt := firstMatchIdx_lt_length _ _ _ hidx
    rcases firstMatchIdx_get _ _ _ hidx with ⟨m, hm, _⟩
    refine ⟨m, hm, ?_, bucketInsert_lookup m.attributes idx code v⟩
    unfold add_media_attr
    rw [hidx]
    have h1 : ¬ (i + 1 = 0) := by omega
    have h2 : ¬ (i + 1 > ms.length - 1) := by omega
    simp only [h1, h2, if_false]
    unfold listModify
    rw [hm]
  · unfold add_media_attr
    rw [h0]
    simp
  · unfold add_media_attr
    rw [hnone]

/-- Witness for C5 amended: a two-line body stores the attribute in the
second line's bucket; bodies matching at index 0 or not at all are
unchanged. -/
theorem media_attr_storage_witness :
    (∃ m, List.get? [⟨"audio", 40564, 1, "RTP/AVP", ["8"], [("8", [])]⟩,
        (⟨"video", 40378, 1, "RTP/AVP", ["99"], [("99", [])]⟩ : MediaLine)] 1 =
        some m ∧
      add_media_attr [⟨"audio", 40564, 1, "RTP/AVP", ["8"], [("8", [])]⟩,
          ⟨"video", 40378, 1, "RTP/AVP", ["99"], [("99", [])]⟩] "99" "fmtp"
          (.fmtp "99" ["packetization-mode"]) =
        List.set [⟨"audio", 40564, 1, "RTP/AVP", ["8"], [("8", [])]⟩,
          ⟨"video", 40378, 1, "RTP/AVP", ["99"], [("99", [])]⟩] 1
          { m with attributes := (bucketInsert m.attributes "99" "fmtp"
              (.fmtp "99" ["packetization-mode"])) } ∧
      ((bucketInsert m.attributes "99" "fmtp"
          (.fmtp "99" ["packetization-mode"])).lookup "99").bind
        (fun b => b.lookup "fmtp") = some (.fmtp "99" ["packetization-mode"])) ∧
    add_media_attr [⟨"audio", 40564, 1, "RTP/AVP", ["8"], [("8", [])]⟩]
        "8" "rtpmap" (.rtpmap "8" "PCMA" "8000" none) =
      [⟨"audio", 40564, 1, "RTP/AVP", ["8"], [("8", [])]⟩] :=
  ⟨(media_attr_storage _ "99" "fmtp" (.fmtp "99" ["packetization-mode"])).1 0
      (by decide),
   (media_attr_storage _ "8" "rtpmap" (.rtpmap "8" "PCMA" "8000" none)).2.1
      (by decide)⟩

/-! ### C6 — outbound sequence/timestamp advance -/

/-- **C6.** For every outbound RTP stream, each successively transmitted
packet carries a sequence number equal to the previous packet's plus 1
and a timestamp equal to the previous packet's plus the byte length of
the previous packet's encoded payload — for any codec preference, SSRC,
encoder interpretation, initial counters and frame list. -/
theorem rtp_outbound_counters (pref : Option RtpPayloadType) (ssrc : Nat)
    (encA encU : List Nat → List Nat) (st : TransState)
    (frames : List (List Nat)) :
    List.Chain' (fun p q => q.sequence = p.sequence + 1 ∧
        q.timestamp = p.timestamp + p.payloadLength)
      (transRun pref ssrc encA encU st frames).1 := by
  induction frames generalizing st with
  | nil => simp [transRun]
  | cons f fs ih =>
    show List.Chain' _ ((transStep pref ssrc encA encU st f).1 ::
      (transRun pref ssrc encA encU (transStep pref ssrc encA encU st f).2 fs).1)
    refine List.chain'_cons'.mpr ⟨?_, ih _⟩
    intro q hq
    cases fs with
    | nil => simp [transRun] at hq
    | cons g gs =>
      have hq' : (transStep pref ssrc encA encU
          (transStep pref ssrc encA encU st f).2 g).1 = q := by
        simpa [transRun] using hq
      subst hq'
      simp [transStep]

/-! ### C7 — audio delegation state checks -/

/-- **C7 counterexample.** The claim requires `read_audio` to raise an
invalid-state error outside the answered state, but the source has no
state check in `read_audio`: on a ringing call with an audio client it
happily returns a (silence-padded) frame. -/
theorem read_audio_no_state_check_cex :
    (⟨.ringing, [⟨[(8, .pcma)], 0, pmInit, pmInit⟩]⟩ : CallM).state ≠
      .answered ∧
    (read_audio ⟨.ringing, [⟨[(8, .pcma)], 0, pmInit, pmInit⟩]⟩ 4).1 =
      .ok (some [0x80, 0x80, 0x80, 0x80]) :=
  ⟨by decide, by rfl⟩

/-- **C7 amended.** `write_audio` requires state = answered — in any other
state it raises an invalid-state error — and the call's state is never
changed by either operation; when answered, `write_audio` delegates to
the first audio `RtpClient`.  `read_audio` delegates to the first audio
client *regardless of the call state* (returning `none` when there is no
audio client) and never raises. -/
theorem audio_delegation (c : CallM) (d : List Nat) (len : Nat) :
    (c.state ≠ .answered → write_audio c d = (.error .invalidState, c)) ∧
    ((write_audio c d).2.state = c.state) ∧
    ((read_audio c len).2.state = c.state) ∧
    (c.state = .answered → ∀ i, firstMatchIdx is_audio c.clients = some i →
      ∃ cl, c.clients.get? i = some cl ∧
        write_audio c d =
          (.ok (), { c with clients := c.clients.set i (clientWrite cl d) })) ∧
    (∀ i, firstMatchIdx is_audio c.clients = some i →
      ∃ cl, c.clients.get? i = some cl ∧
        read_audio c len =
          (.ok (some (clientRead cl len).1),
           { c with clients := c.clients.set i (clientRead cl len).2 })) ∧
    (firstMatchIdx is_audio c.clients = none →
      read_audio c len = (.ok none, c)) := by
  refine ⟨fun hs => ?_, ?_, ?_, fun hs i hidx => ?_, fun i hidx => ?_, fun hn => ?_⟩
  · simp [write_audio, hs]
  · by_cases hs : c.state ≠ .answered
    · simp [write_audio, hs]
    · unfold write_audio
      rw [if_neg hs]
      cases h : firstMatchIdx is_audio c.clients <;> rfl
  · unfold read_audio
    cases h : firstMatchIdx is_audio c.clients with
    | none => rfl
    | some i => cases hcl : c.clients.get? i <;> simp only [hcl]
  · rcases firstMatchIdx_get _ _ _ hidx with ⟨cl, hcl, _⟩
    refine ⟨cl, hcl, ?_⟩
    unfold write_audio
    rw [if_neg (by simp [hs]), hidx]
    simp only [listModify, hcl]
  · rcases firstMatchIdx_get _ _ _ hidx with ⟨cl, hcl, _⟩
    refine ⟨cl, hcl, ?_⟩
    unfold read_audio
    rw [hidx]
    simp only [hcl]
  · unfold read_audio
    rw [hn]

/-- Witness for C7 amended at a concrete answered call with one audio
client, plus the error branch on a ringing call. -/
theorem audio_delegation_witness :
    write_audio ⟨.ringing, [⟨[(8, .pcma)], 0, pmInit, pmInit⟩]⟩ [1] =
      (.error .invalidState, ⟨.ringing, [⟨[(8, .pcma)], 0, pmInit, pmInit⟩]⟩) ∧
    (∃ cl, List.get? [(⟨[(8, .pcma)], 0, pmInit, pmInit⟩ : RtpClientM)] 0 =
        some cl ∧
      write_audio ⟨.answered, [⟨[(8, .pcma)], 0, pmInit, pmInit⟩]⟩ [1] =
        (.ok (), ⟨.answered, List.set [⟨[(8, .pcma)], 0, pmInit, pmInit⟩] 0
          (clientWrite cl [1])⟩)) :=
  ⟨(audio_delegation ⟨.ringing, [⟨[(8, .pcma)], 0, pmInit, pmInit⟩]⟩ [1] 160).1
      (by decide),
   (audio_delegation ⟨.answered, [⟨[(8, .pcma)], 0, pmInit, pmInit⟩]⟩ [1]
      160).2.2.2.1 rfl 0 (by decide)⟩

/-! ### C8 — registration retry loop -/

/-- **C8.** Whenever every REGISTER transaction's final response has no
status or a status ≥ 500, the endpoint sends REGISTER #1, sleeps the
5-second back-off and restarts the handshake from the first REGISTER,
indefinitely and without raising: observed for any number of such
attempts, the outcome is still `pending` (the recursion continuing) and
the trace is exactly one send + one back-off per attempt. -/
theorem register_retries (msgs : List (Option Nat))
    (h : ∀ s ∈ msgs, s = none ∨ ∃ v, s = some v ∧ 500 ≤ v) :
    register msgs.length msgs =
      (.pending, msgs.flatMap fun _ => [.sendRegisterFirst, .sleepRetry]) := by
  induction msgs with
  | nil => rfl
  | cons s rest ih =>
    have hr := ih fun x hx => h x (List.mem_cons_of_mem _ hx)
    rcases h s (List.mem_cons_self _ _) with rfl | ⟨v, rfl, hv⟩
    · simp [register, hr]
    · have h100 : v ≠ 100 := by omega
      have h400 : v ≠ 400 := by omega
      have h401 : v ≠ 401 := by omega
      have h407 : v ≠ 407 := by omega
      simp [register, hr, h100, h400, h401, h407, hv]

/-- Witness for C8 at a concrete run: one 500 response, then a parsed
request (no status); two full retry cycles, still pending. -/
theorem register_retries_witness :
    register 2 [some 500, none] =
      (.pending, [.sendRegisterFirst, .sleepRetry,
                  .sendRegisterFirst, .sleepRetry]) := by
  have h := register_retries [some 500, none] (by
    intro s hs
    rcases List.mem_cons.mp hs with rfl | hs'
    · exact Or.inr ⟨500, rfl, by norm_num⟩
    · rcases List.mem_cons.mp hs' with rfl | hs''
      · exact Or.inl rfl
      · simp at hs'')
  simpa using h

/-! ### C9 — RTP header flags and marker -/

/-- **C9 counterexample.** The claim says the marker bit is set on the
first packet of an outbound stream, but `_encode_packet` writes the
payload-type id (8 for PCMA) as the whole second byte: the marker bit is
0 on every packet, the first included. -/
theorem rtp_marker_never_set_cex :
    (transRun (some .pcma) 1000 id id ⟨1, 1⟩ [[1]]).1.length = 1 ∧
    wireMarker ((transRun (some .pcma) 1000 id id ⟨1, 1⟩ [[1]]).1.headD
      ⟨[], 0, 0, 0⟩).bytes = 0 :=
  ⟨by decide, by decide⟩

/-- **C9 amended.** Every packet of an outbound PCMA or PCMU stream
carries version = 2 with no padding and no extension, and the marker bit
is set on **no** packet — not even the first. -/
theorem rtp_header_flags (pref : Option RtpPayloadType) (ssrc : Nat)
    (encA encU : List Nat → List Nat) (st : TransState)
    (frames : List (List Nat))
    (hpref : pref = some .pcma ∨ pref = some .pcmu) :
    ∀ p ∈ (transRun pref ssrc encA encU st frames).1,
      wireVersion p.bytes = 2 ∧ wirePadding p.bytes = 0 ∧
      wireExtension p.bytes = 0 ∧ wireMarker p.bytes = 0 := by
  induction frames generalizing st with
  | nil => intro p hp; simp [transRun] at hp
  | cons f fs ih =>
    intro p hp
    have hp' : p = (transStep pref ssrc encA encU st f).1 ∨
        p ∈ (transRun pref ssrc encA encU
          (transStep pref ssrc encA encU st f).2 fs).1 := by
      simpa [transRun] using hp
    rcases hp' with rfl | hmem
    · rcases hpref with rfl | rfl <;>
        simp [transStep, encode_packet, prefInt, payloadValueInt, utf8Chr,
          wireVersion, wirePadding, wireExtension, wireMarker]
    · exact ih _ p hmem

/-- Witness for C9 amended: the single packet of a one-frame PCMA
stream, checked through the theorem. -/
theorem rtp_header_flags_witness :
    wireVersion ((transRun (some .pcma) 1000 id id ⟨1, 1⟩ [[1]]).1.headD
        ⟨[], 0, 0, 0⟩).bytes = 2 ∧
    wirePadding ((transRun (some .pcma) 1000 id id ⟨1, 1⟩ [[1]]).1.headD
        ⟨[], 0, 0, 0⟩).bytes = 0 ∧
    wireExtension ((transRun (some .pcma) 1000 id id ⟨1, 1⟩ [[1]]).1.headD
        ⟨[], 0, 0, 0⟩).bytes = 0 ∧
    wireMarker ((transRun (some .pcma) 1000 id id ⟨1, 1⟩ [[1]]).1.headD
        ⟨[], 0, 0, 0⟩).bytes = 0 :=
  rtp_header_flags (some .pcma) 1000 id id ⟨1, 1⟩ [[1]] (Or.inl rfl) _
    (by decide)

/-! ### C10 — counter overflow drops header fields -/

theorem beBytes_length (w n : Nat) : (beBytes w n).length = w := by
  induction w generalizing n with
  | zero => rfl
  | succ w ih => simp [beBytes, ih]

/-- **C10.** When the outbound sequence counter reaches 65 536 (or the
timestamp counter reaches 2³²), `to_bytes` overflows, the suppressed
exception silently drops the 2-byte sequence (4-byte timestamp) field,
and the header comes out 10 bytes (instead of 12) before the payload; the
in-memory counters themselves keep increasing without bound — the final
sequence is the initial one plus the number of frames, with no reduction
modulo 2¹⁶ or 2³². -/
theorem rtp_counter_overflow (ssrc : Nat) (encA encU : List Nat → List Nat)
    (payload : List Nat) (seq ts : Nat) :
    (65536 ≤ seq →
      (encode_packet (some .pcma) ssrc encA encU payload seq ts).1 =
        [0x80, 8] ++ (toBytesBE 4 ts).getD [] ++ beBytes 4 ssrc ++
          encA payload) ∧
    (2 ^ 32 ≤ ts →
      (encode_packet (some .pcma) ssrc encA encU payload seq ts).1 =
        [0x80, 8] ++ (toBytesBE 2 seq).getD [] ++ beBytes 4 ssrc ++
          encA payload) ∧
    (65536 ≤ seq → ts < 2 ^ 32 →
      ((encode_packet (some .pcma) ssrc encA encU payload seq ts).1).length =
        10 + (encA payload).length) ∧
    (∀ st frames,
      ((transRun (some .pcma) ssrc encA encU st frames).2).sequence =
        st.sequence + frames.length) ∧
    (∀ st frames,
      ((transRun (some .pcma) ssrc encA encU st frames).2).timestamp =
        st.timestamp +
          (((transRun (some .pcma) ssrc encA encU st frames).1).map
            SentPacket.payloadLength).sum) := by
  refine ⟨fun hseq => ?_, fun hts => ?_, fun hseq hts => ?_, fun st frames => ?_,
    fun st frames => ?_⟩
  · have h1 : ¬ seq < 65536 := by omega
    simp [encode_packet, toBytesBE, utf8Chr, prefInt, payloadValueInt, h1]
  · have h32 : (2 : Nat) ^ 32 = 4294967296 := by norm_num
    have h1 : ¬ ts < 4294967296 := by omega
    simp [encode_packet, toBytesBE, utf8Chr, prefInt, payloadValueInt, h1]
  · have h32 : (2 : Nat) ^ 32 = 4294967296 := by norm_num
    have h1 : ¬ seq < 65536 := by omega
    have h2 : ts < 4294967296 := by omega
    simp [encode_packet, toBytesBE, utf8Chr, prefInt, payloadValueInt, h1, h2,
      beBytes_length]
    omega
  · induction frames generalizing st with
    | nil => simp [transRun]
    | cons f fs ih =>
      show ((transRun (some .pcma) ssrc encA encU
        (transStep (some .pcma) ssrc encA encU st f).2 fs).2).sequence = _
      rw [ih]
      simp [transStep, List.length_cons]
      omega
  · induction frames generalizing st with
    | nil => simp [transRun]
    | cons f fs ih =>
      show ((transRun (some .pcma) ssrc encA encU
        (transStep (some .pcma) ssrc encA encU st f).2 fs).2).timestamp = _
      rw [ih]
      show (transStep (some .pcma) ssrc encA encU st f).2.timestamp + _ = _
      simp [transStep, transRun]
      omega

/-- Witness for C10 at sequence 70 000 (≥ 2¹⁶) and timestamp 3: the
sequence field is absent and the packet is 10 bytes of header plus one
payload byte. -/
theorem rtp_counter_overflow_witness :
    (encode_packet (some .pcma) 1000 id id [5] 70000 3).1 =
      [0x80, 8] ++ (toBytesBE 4 3).getD [] ++ beBytes 4 1000 ++ id [5] ∧
    ((encode_packet (some .pcma) 1000 id id [5] 70000 3).1).length =
      10 + (id [5] : List Nat).length :=
  ⟨(rtp_counter_overflow 1000 id id [5] 70000 3).1 (by norm_num),
   (rtp_counter_overflow 1000 id id [5] 70000 3).2.2.1 (by norm_num)
     (by norm_num)⟩

end TattelecomIntercom
